import Mathlib

/-!
# OCRCheck — verification of the document-processing pipeline spec

Shallow embedding of the OCRCheck repository (Next.js frontend under
`frontend/src`, plus the asynchronous document-processing pipeline whose
backend sources are not part of the frontend tree and are therefore
modelled from the spec where noted).

Frontend code embedded from source:
- `frontend/src/lib/format.ts` (`formatSize`)
- `frontend/src/app/_components/StatusBadge.tsx` (`statusMap`, `StatusBadge`)
- `frontend/src/lib/api.ts` (wire types: `DocumentData.status`, `OCRBlock`,
  `OCRTable`, `OCRPageData`, `Entities`)
- `DocumentDetailPage` (`EntitiesCard` sections)

Numbers appearing in wire payloads (confidences, bounding boxes) are
modelled as `ℚ`; byte counts and page numbers as `ℕ`.
-/

namespace OCRCheck

/-! ## Wire data model (from `frontend/src/lib/api.ts`) -/

/-- The wire-visible document status, from the union type on
`DocumentData.status` (`api.ts` line 21):
`"uploaded" | "processing" | "completed" | "failed"`. -/
inductive Status where
  | uploaded
  | processing
  | completed
  | failed
deriving DecidableEq, Repr, Fintype

/-- Serialization of a `Status` to its wire string. -/
def statusToWire : Status → String
  | .uploaded => "uploaded"
  | .processing => "processing"
  | .completed => "completed"
  | .failed => "failed"

/-- The four wire status strings listed by the spec. -/
def wireStatuses : List String :=
  ["uploaded", "processing", "completed", "failed"]

/-- Type `OCRBlock` from `api.ts` (lines 142–146): `text: string`,
`bbox: number[]`, `confidence: number`. -/
structure OCRBlock where
  text : String
  bbox : List ℚ
  confidence : ℚ
deriving DecidableEq, Repr

/-- Type `OCRTable` from `api.ts` (lines 148–151): `bbox: number[]`, `html: string`. -/
structure OCRTable where
  bbox : List ℚ
  html : String
deriving DecidableEq, Repr

/-- Type `Entities` from `api.ts` (lines 5–12): six entity categories, each a
list of strings. -/
structure Entities where
  people : List String
  organizations : List String
  dates : List String
  amounts : List String
  addresses : List String
  references : List String
deriving DecidableEq, Repr

/-- The six entity keys fixed by the document-understanding output schema. -/
def entityKeys : List String :=
  ["people", "organizations", "dates", "amounts", "addresses", "references"]

/-- Projection of an `Entities` value to its (key, value) pairs, in the
declaration order of `api.ts`. -/
def entityPairs (e : Entities) : List (String × List String) :=
  [("people", e.people), ("organizations", e.organizations),
   ("dates", e.dates), ("amounts", e.amounts),
   ("addresses", e.addresses), ("references", e.references)]

/-- The `sections` array of `EntitiesCard` in `DocumentDetailPage`
(key, label, icon), transcribed in order. -/
def entitiesCardSections : List (String × String × String) :=
  [("people", "人名", "P"), ("organizations", "組織名", "O"),
   ("dates", "日付", "D"), ("amounts", "金額", "A"),
   ("addresses", "住所", "L"), ("references", "参照番号", "R")]

/-- The document-understanding output schema (spec §6 and `api.ts`
`DocumentData` AI fields): category, category_confidence, summary, tags,
entities, document_date (nullable), key_points. -/
structure UnderstandingResult where
  category : String
  category_confidence : ℚ
  summary : String
  tags : List String
  entities : Entities
  document_date : Option String
  key_points : List String
deriving DecidableEq, Repr

/-! ## `formatSize` (from `frontend/src/lib/format.ts`) -/

/-- Semantics of `Number.prototype.toFixed(1)` for a non-negative JS number, per the
ECMAScript spec: the printed integer `n` is the one with `n / 10` closest
to `x`, ties resolved to the larger `n` — i.e. `n = ⌊10·x + 1/2⌋`.
`formatSize` only ever calls this on `bytes / 2^10` or `bytes / 2^20`
with an integral `bytes`; division of an integer below `2^53` by a power
of two is exact in IEEE double arithmetic, so modelling the argument as
the exact rational is faithful. -/
def jsToFixed1 (x : ℚ) : String :=
  let n : ℕ := ⌊10 * x + 1 / 2⌋₊
  toString (n / 10) ++ "." ++ toString (n % 10)

/-- Function `formatSize` from `format.ts` lines 1–5:
`bytes < 1024` → `` `${bytes} B` ``; `bytes < 1024*1024` →
`` `${(bytes/1024).toFixed(1)} KB` ``; otherwise
`` `${(bytes/(1024*1024)).toFixed(1)} MB` ``. -/
def formatSize (bytes : ℕ) : String :=
  if bytes < 1024 then toString bytes ++ " B"
  else if bytes < 1024 * 1024 then jsToFixed1 ((bytes : ℚ) / 1024) ++ " KB"
  else jsToFixed1 ((bytes : ℚ) / (1024 * 1024)) ++ " MB"

/-- Rounding of `b / d` to one decimal, half up, in integer arithmetic:
`⌊(10·b + d/2) / d⌋` for even `d`. Used to state the claim's reading of
"divided by `d` rounded to one decimal" independently of `jsToFixed1`. -/
def oneDecimalString (b d : ℕ) : String :=
  let t := (10 * b + d / 2) / d
  toString (t / 10) ++ "." ++ toString (t % 10)

/-- The claim's description of `formatSize`, written from its words:
the count suffixed `" B"` below 1024, the count divided by 1024 rounded
to one decimal suffixed `" KB"` below 1048576, and otherwise the count
divided by 1048576 rounded to one decimal suffixed `" MB"`. -/
def formatSizeClaim (bytes : ℕ) : String :=
  if bytes < 1024 then toString bytes ++ " B"
  else if bytes < 1048576 then oneDecimalString bytes 1024 ++ " KB"
  else oneDecimalString bytes 1048576 ++ " MB"

/-! ## `StatusBadge` (from `frontend/src/app/_components/StatusBadge.tsx`) -/

/-- The rendered content of a status badge: its visible label and its
Tailwind class string. -/
structure Badge where
  label : String
  cls : String
deriving DecidableEq, Repr

/-- The `statusMap` record literal of `StatusBadge.tsx` (lines 1–6), as an
association list over its own keys. -/
def statusMap : List (String × Badge) :=
  [("uploaded", ⟨"アップロード済", "bg-gray-100 text-gray-600"⟩),
   ("processing", ⟨"処理中", "bg-yellow-100 text-yellow-700 animate-pulse"⟩),
   ("completed", ⟨"完了", "bg-green-100 text-green-700"⟩),
   ("failed", ⟨"失敗", "bg-red-100 text-red-700"⟩)]

/-- The member names a plain object literal inherits from
`Object.prototype` (ECMAScript, plus the Annex B accessors). Reading any
of them on the literal yields a truthy function — or, for `__proto__`,
the `Object.prototype` object itself — never `undefined`. -/
def objectPrototypeKeys : List String :=
  ["constructor", "hasOwnProperty", "isPrototypeOf", "propertyIsEnumerable",
   "toLocaleString", "toString", "valueOf", "__proto__",
   "__defineGetter__", "__defineSetter__", "__lookupGetter__",
   "__lookupSetter__"]

/-- Result of the JS bracket lookup `statusMap[status]`: an own property
(one of the four records), a truthy member inherited from
`Object.prototype`, or `undefined`. -/
inductive LookupResult where
  | own (b : Badge)
  | inherited
  | missing
deriving DecidableEq, Repr

/-- JS bracket indexing of the `statusMap` object literal: own keys
first, then the prototype chain, else `undefined`. -/
def statusMapIndex (status : String) : LookupResult :=
  match statusMap.lookup status with
  | some b => .own b
  | none => if status ∈ objectPrototypeKeys then .inherited else .missing

/-- The className of the rendered span,
`` `inline-flex px-2 py-0.5 rounded-full text-xs font-medium ${s.cls}` ``;
a JS `undefined` cls interpolates as the text `undefined`. -/
def renderClassName (cls : Option String) : String :=
  "inline-flex px-2 py-0.5 rounded-full text-xs font-medium " ++
    cls.getD "undefined"

/-- The rendered status badge: the visible label (`none` models a JS
`undefined`, which React renders as nothing) and the className string. -/
structure RenderedBadge where
  label : Option String
  className : String
deriving DecidableEq, Repr

/-- The `StatusBadge` component (lines 8–15):
`const s = statusMap[status] || { label: status, cls: "bg-gray-100
text-gray-600" }`. An own record and a truthy inherited member both
short-circuit the `||`; only an `undefined` lookup falls back. Reading
`.label`/`.cls` off an inherited function member yields `undefined`. -/
def statusBadge (status : String) : RenderedBadge :=
  match statusMapIndex status with
  | .own b => ⟨some b.label, renderClassName (some b.cls)⟩
  | .inherited => ⟨none, renderClassName none⟩
  | .missing => ⟨some status, renderClassName (some "bg-gray-100 text-gray-600")⟩

/-! ## Pipeline model

The FastAPI backend that implements the pipeline is not part of the
frontend tree; the definitions below are modelled from the spec (§3, §4),
as noted on each. -/

/-- Modelled from the spec (§3 Document, `api.ts` `DocumentData`): the
processing-derived fields of a document. AI-derived fields are nullable
(`null`/empty until the understanding stage commits them). -/
structure Document where
  status : Status
  page_count : Option ℕ
  category : Option String
  category_confidence : Option ℚ
  summary : Option String
  tags : Option (List String)
  entities : Option Entities
  document_date : Option String
  key_points : Option (List String)
deriving DecidableEq, Repr

/-- The AI-derived fields named by the spec (§4.1, §8): category, summary,
tags, entities, document_date, key_points — all null/empty. -/
def aiFieldsEmpty (d : Document) : Prop :=
  d.category = none ∧ d.summary = none ∧ d.tags = none ∧
  d.entities = none ∧ d.document_date = none ∧ d.key_points = none

instance (d : Document) : Decidable (aiFieldsEmpty d) := by
  unfold aiFieldsEmpty; infer_instance

/-- Modelled from the spec (§4.1): the dispatcher clears
`category/summary/tags/entities/document_date/key_points` on reprocess. -/
def clearAIFields (d : Document) : Document :=
  { d with category := none, summary := none, tags := none,
           entities := none, document_date := none, key_points := none }

/-- Modelled from the spec (§3 ProcessingJob): `{document_id, attempt,
enqueued_at, reason}` with `reason ∈ {initial, reprocess}` (`enqueued_at`
kept abstract as a `ℕ` timestamp). -/
inductive JobReason where
  | initial
  | reprocessReq
deriving DecidableEq, Repr

/-- Modelled from the spec (§3): one queue message. -/
structure ProcessingJob where
  document_id : String
  attempt : ℕ
  enqueued_at : ℕ
  reason : JobReason
deriving DecidableEq, Repr

/-- Dispatcher-level synchronous rejections (spec §4.1, §7). -/
inductive DispatchError where
  | AlreadyActive
  | InvalidState
deriving DecidableEq, Repr

/-- Modelled from the spec (§4.1): dispatcher-visible state for one
document — its row, whether its per-document active-job lock token is
held, and the queue. -/
structure DispatchState where
  doc : Document
  tokenHeld : Bool
  queue : List ProcessingJob
deriving DecidableEq, Repr

/-- Modelled from the spec (§4.1): `reprocess(document_id)` requires
current status ∈ {completed, failed}, returning `InvalidState` otherwise;
a held lock token yields `AlreadyActive`; on success it immediately resets
status to `processing`, clears the AI-derived fields, takes the token and
publishes a ProcessingJob with reason reprocess. Errors change nothing. -/
def reprocess (docId : String) (now : ℕ) (st : DispatchState) :
    Option DispatchError × DispatchState :=
  if st.doc.status = .completed ∨ st.doc.status = .failed then
    if st.tokenHeld then (some .AlreadyActive, st)
    else
      (none,
       { doc := { clearAIFields st.doc with status := .processing },
         tokenHeld := true,
         queue := st.queue ++ [⟨docId, 0, now, .reprocessReq⟩] })
  else (some .InvalidState, st)

/-! ### Persistence writer (spec §4.6) -/

/-- Modelled from the spec (§3 OCRPage, `api.ts` `OCRPageData`): one
OCRPage row, keyed by (document_id, page_number). -/
structure OCRPageRow where
  document_id : String
  page_number : ℕ
  full_text : String
  blocks : List OCRBlock
  tables : List OCRTable
  confidence : ℚ
deriving DecidableEq, Repr

/-- Whether two rows share the (document_id, page_number) key. -/
def sameKey (a b : OCRPageRow) : Bool :=
  a.document_id = b.document_id ∧ a.page_number = b.page_number

/-- Rows have pairwise distinct (document_id, page_number) keys. -/
def uniqueKeys (rows : List OCRPageRow) : Prop :=
  rows.Pairwise (fun a b => sameKey a b = false)

/-- Number of rows carrying a given (document_id, page_number) key. -/
def countKey (rows : List OCRPageRow) (docId : String) (n : ℕ) : ℕ :=
  rows.countP (fun q => q.document_id = docId ∧ q.page_number = n)

/-- Modelled from the spec (§4.6): `commitPage` upserts one OCRPage row
keyed by (document_id, page_number) — any row holding that key is
replaced, never duplicated. -/
def commitPage (rows : List OCRPageRow) (r : OCRPageRow) : List OCRPageRow :=
  rows.filter (fun q => !sameKey q r) ++ [r]

/-! ### Stage adapters (spec §4.3–§4.5) -/

/-- Modelled from the spec (§4.3): successful text-recognition output for
one page — full page text and the ordered list of text blocks. -/
structure PageOCR where
  full_text : String
  blocks : List OCRBlock
deriving DecidableEq, Repr

/-- Modelled from the spec (§4.3, §7): outcome of the required
text-recognition stage for one page after the retry policy — success, or
a terminal failure (transient retries exhausted / permanent). -/
inductive RecogOutcome where
  | ok (r : PageOCR)
  | exhausted
  | permanent
deriving DecidableEq, Repr

/-- Whether a recognition outcome is a success. -/
def RecogOutcome.succeeded : RecogOutcome → Bool
  | .ok _ => true
  | _ => false

/-- Modelled from the spec (§4.4): table extraction either yields tables
or fails; any failure is treated as "zero tables found". -/
inductive TableOutcome where
  | ok (ts : List OCRTable)
  | failure
deriving DecidableEq, Repr

/-- Modelled from the spec (§4.4): the tables committed for a page —
failures degrade to the empty list. -/
def tablesOf : TableOutcome → List OCRTable
  | .ok ts => ts
  | .failure => []

/-- Modelled from the spec (§4.5, §9): tagged outcome of the
document-understanding stage — a parsed result, a schema-invalid
response, or an unconfigured adapter. -/
inductive UnderstandingOutcome where
  | parsed (r : UnderstandingResult)
  | schemaInvalid
  | unconfigured
deriving DecidableEq, Repr

/-- Modelled from the spec (§4.3): the page-level aggregate confidence is
the arithmetic mean of the block confidences, or 0 if no blocks found. -/
def aggregateConfidence (blocks : List OCRBlock) : ℚ :=
  if blocks = [] then 0
  else (blocks.map OCRBlock.confidence).sum / blocks.length

/-- Modelled from the spec (§4.6): the OCRPage row the writer commits for
one page from the stage outputs. -/
def mkRow (docId : String) (n : ℕ) (r : PageOCR) (ts : List OCRTable) :
    OCRPageRow :=
  { document_id := docId, page_number := n, full_text := r.full_text,
    blocks := r.blocks, tables := ts,
    confidence := aggregateConfidence r.blocks }

/-- Modelled from the spec (§4.5): applying the understanding outcome to
the document's AI fields. Unconfigured is entirely skipped; a
schema-invalid response is retried once with the same input — the model
is deterministic, so the retry returns schema-invalid again and the stage
is skipped, leaving the fields untouched. -/
def applyUnderstanding (u : UnderstandingOutcome) (d : Document) : Document :=
  match u with
  | .parsed r =>
      { d with category := some r.category,
               category_confidence := some r.category_confidence,
               summary := some r.summary, tags := some r.tags,
               entities := some r.entities,
               document_date := r.document_date,
               key_points := some r.key_points }
  | .schemaInvalid => d
  | .unconfigured => d

/-- The 1-based page numbers of a document with `pc` pages. -/
def pageNumbers (pc : ℕ) : List ℕ := List.range' 1 pc

/-- Modelled from the spec (§4.2, §4.6): processing of one page — a
successful required stage commits its row through the writer (tables
degraded to `[]` on optional-stage failure); a failed required stage
leaves the rows untouched. -/
def pipelineStep (docId : String) (recog : ℕ → RecogOutcome)
    (tables : ℕ → TableOutcome) (acc : List OCRPageRow) (n : ℕ) :
    List OCRPageRow :=
  match recog n with
  | .ok r => commitPage acc (mkRow docId n r (tablesOf (tables n)))
  | _ => acc

/-- The OCRPage rows after one run's per-page stage sequence. -/
def runRows (docId : String) (pc : ℕ) (recog : ℕ → RecogOutcome)
    (tables : ℕ → TableOutcome) (rows : List OCRPageRow) :
    List OCRPageRow :=
  (pageNumbers pc).foldl (pipelineStep docId recog tables) rows

/-- Whether some row of a row set shares a key with the given row. -/
def keyHits (q : OCRPageRow) (l : List OCRPageRow) : Bool :=
  l.any (fun r => sameKey q r)

/-- The rows one run commits for the pages of the given list: one row per
page whose required stage succeeded, in page order. -/
def committedRows (docId : String) (recog : ℕ → RecogOutcome)
    (tables : ℕ → TableOutcome) (ns : List ℕ) : List OCRPageRow :=
  ns.filterMap (fun n =>
    match recog n with
    | .ok r => some (mkRow docId n r (tablesOf (tables n)))
    | _ => none)

/-- Modelled from the spec (§4.2): one orchestrator run over a claimed
job. Stage 1 (required) and stage 2 (optional, degraded to `[]` on
failure) run per page and their rows are upserted by the writer; if every
page's required stage succeeded, stage 3's outcome is applied and
commitDocument flips the status to completed with the page count;
otherwise the document is failed and no AI fields are written. -/
def runPipeline (docId : String) (pc : ℕ) (recog : ℕ → RecogOutcome)
    (tables : ℕ → TableOutcome) (und : UnderstandingOutcome)
    (d : Document) (rows : List OCRPageRow) : Document × List OCRPageRow :=
  if (pageNumbers pc).all (fun n => (recog n).succeeded) then
    ({ applyUnderstanding und d with
        status := .completed, page_count := some pc },
     runRows docId pc recog tables rows)
  else
    ({ d with status := .failed }, runRows docId pc recog tables rows)

/-! ### Orchestrator state machine (spec §4.2 transition table) -/

/-- Modelled from the spec (§4.2): the events of the transition table. -/
inductive Event where
  | jobClaimed
  | requiredStageSucceeded
  | requiredStageExhausted
  | optionalStageFailed
  | allStagesCommitted
  | reprocessRequested
deriving DecidableEq, Repr, Fintype

/-- Modelled from the spec (§4.2): the transition table; rows absent from
the table are `none`. -/
def stepStatus : Status → Event → Option Status
  | .uploaded, .jobClaimed => some .processing
  | .processing, .requiredStageSucceeded => some .processing
  | .processing, .requiredStageExhausted => some .failed
  | .processing, .optionalStageFailed => some .processing
  | .processing, .allStagesCommitted => some .completed
  | .completed, .reprocessRequested => some .processing
  | .failed, .reprocessRequested => some .processing
  | _, _ => none

/-- Position of a status along the monotonic order
`uploaded → processing → {completed | failed}`. -/
def statusRank : Status → ℕ
  | .uploaded => 0
  | .processing => 1
  | .completed => 2
  | .failed => 2

/-- Well-formedness of a wire OCR block (spec §6 OCR block schema): the
bounding box is a fixed-length quadruple and the confidence lies in
`[0, 1]`. -/
def blockWF (b : OCRBlock) : Prop :=
  b.bbox.length = 4 ∧ 0 ≤ b.confidence ∧ b.confidence ≤ 1

instance (b : OCRBlock) : Decidable (blockWF b) := by
  unfold blockWF; infer_instance

/-! ## Concrete inputs used by witnesses and scenario checks -/

/-- The page-1 blocks of the spec's §8 scenario, with confidences
0.9, 0.95, 0.99. -/
def scenarioBlocks : List OCRBlock :=
  [⟨"甲", [0, 0, 1, 1], 9 / 10⟩,
   ⟨"乙", [0, 1, 1, 2], 19 / 20⟩,
   ⟨"丙", [0, 2, 1, 3], 99 / 100⟩]

/-- A freshly reset document row: status processing, all derived fields
still null. -/
def emptyDoc : Document :=
  ⟨.processing, none, none, none, none, none, none, none, none⟩

/-- A dispatcher state whose document is mid-processing. -/
def procState : DispatchState :=
  ⟨{ emptyDoc with status := .processing }, true, []⟩

/-- A recognition adapter that succeeds on every page with one block. -/
def wRecog : ℕ → RecogOutcome :=
  fun _ => .ok ⟨"請求書", [⟨"請求書", [0, 0, 100, 20], 9 / 10⟩]⟩

/-- A table-extraction adapter that always fails. -/
def wTables : ℕ → TableOutcome := fun _ => .failure

/-! ## Claim theorems -/

/-- Claim C1: the page-level aggregate confidence is the arithmetic mean
of the block confidences of the page, 0 when the page has no blocks, and
on the scenario confidences 0.9, 0.95, 0.99 it evaluates to 71/75 ≈
0.9467, within 1/10000 of 0.9467. -/
theorem page_confidence_is_block_mean :
    (∀ (docId : String) (n : ℕ) (r : PageOCR) (ts : List OCRTable),
       (mkRow docId n r ts).confidence =
         if r.blocks = [] then 0
         else (r.blocks.map OCRBlock.confidence).sum / r.blocks.length) ∧
    aggregateConfidence [] = 0 ∧
    aggregateConfidence scenarioBlocks = 71 / 75 ∧
    |aggregateConfidence scenarioBlocks - 9467 / 10000| < 1 / 10000 := by
  refine ⟨fun docId n r ts => rfl, rfl, ?_, ?_⟩
  · simp [aggregateConfidence, scenarioBlocks]
    norm_num
  · simp [aggregateConfidence, scenarioBlocks]
    rw [abs_lt]
    constructor <;> norm_num

/-- Claim C3: the wire-visible statuses are exactly the four values
uploaded, processing, completed, failed — every status serializes to one
of the four strings, and each of the four strings is the serialization of
some status. -/
theorem wire_status_values :
    (∀ s : Status, statusToWire s ∈ wireStatuses) ∧
    (∀ w ∈ wireStatuses, ∃ s : Status, statusToWire s = w) := by
  constructor
  · intro s
    cases s <;> simp [statusToWire, wireStatuses]
  · intro w hw
    simp only [wireStatuses, List.mem_cons, List.not_mem_nil, or_false] at hw
    rcases hw with h | h | h | h
    · exact ⟨.uploaded, h.symm⟩
    · exact ⟨.processing, h.symm⟩
    · exact ⟨.completed, h.symm⟩
    · exact ⟨.failed, h.symm⟩

/-- Witness for C3 at the concrete wire string processing. -/
theorem wire_status_values_witness :
    ∃ s : Status, statusToWire s = "processing" :=
  wire_status_values.2 "processing" (by simp [wireStatuses])

/-- Claim C7: every document-understanding result conforms to the fixed
output schema — an UnderstandingResult is exactly a tuple of category,
category_confidence, summary, tags, entities, document_date and
key_points; an Entities value projects to exactly the six keys people,
organizations, dates, amounts, addresses, references; and the frontend
EntitiesCard consumes exactly those six keys in that order. -/
theorem understanding_schema_fixed :
    (∀ r : UnderstandingResult,
       ∃ (c : String) (cc : ℚ) (s : String) (tg : List String)
         (e : Entities) (dd : Option String) (kp : List String),
         r = ⟨c, cc, s, tg, e, dd, kp⟩) ∧
    (∀ e : Entities, (entityPairs e).map Prod.fst = entityKeys) ∧
    entitiesCardSections.map Prod.fst = entityKeys :=
  ⟨fun r => ⟨r.category, r.category_confidence, r.summary, r.tags,
             r.entities, r.document_date, r.key_points, rfl⟩,
   fun _ => rfl, rfl⟩

/-- Claim C8: in the orchestrator transition table, any transition into
processing from completed or failed is the reprocess event, and every
non-reprocess transition is monotone along
uploaded → processing → (completed or failed). -/
theorem status_transitions_monotonic :
    ∀ (s : Status) (e : Event) (s' : Status),
      stepStatus s e = some s' →
        (((s = .completed ∨ s = .failed) ∧ s' = .processing) →
            e = .reprocessRequested) ∧
        (e ≠ .reprocessRequested → statusRank s ≤ statusRank s') := by
  decide

/-- Witness for C8 at the transition uploaded → processing on job claim. -/
theorem status_transitions_monotonic_witness :
    statusRank .uploaded ≤ statusRank .processing :=
  (status_transitions_monotonic .uploaded .jobClaimed .processing rfl).2
    (by decide)

/-- Claim C9, counterexample: the input toString lies outside the four
known statuses, yet the rendered badge is not the input string with the
default gray styling — the bracket lookup hits the truthy member
inherited from Object.prototype, so the label is undefined and the
className ends in the text undefined. -/
theorem statusBadge_prototype_counterexample :
    "toString" ∉ ["uploaded", "processing", "completed", "failed"] ∧
    statusBadge "toString" ≠
      ⟨some "toString", renderClassName (some "bg-gray-100 text-gray-600")⟩ ∧
    statusBadge "toString" = ⟨none, renderClassName none⟩ := by
  refine ⟨by decide, by decide, by decide⟩

/-- Claim C9 as amended: StatusBadge is total (it never throws — every
lookup outcome renders some badge), and for every status string outside
the four known keys the badge is the input string with the default gray
styling provided the string is not a member name inherited from
Object.prototype; at an inherited member name the truthy member
short-circuits the fallback and the badge renders an undefined label and
an undefined class. -/
theorem statusBadge_total_amended (s : String)
    (h : s ∉ ["uploaded", "processing", "completed", "failed"]) :
    (s ∉ objectPrototypeKeys →
       statusBadge s =
         ⟨some s, renderClassName (some "bg-gray-100 text-gray-600")⟩) ∧
    (s ∈ objectPrototypeKeys →
       statusBadge s = ⟨none, renderClassName none⟩) := by
  simp only [List.mem_cons, List.not_mem_nil, or_false, not_or] at h
  obtain ⟨h1, h2, h3, h4⟩ := h
  have e1 : (s == "uploaded") = false := beq_eq_false_iff_ne.mpr h1
  have e2 : (s == "processing") = false := beq_eq_false_iff_ne.mpr h2
  have e3 : (s == "completed") = false := beq_eq_false_iff_ne.mpr h3
  have e4 : (s == "failed") = false := beq_eq_false_iff_ne.mpr h4
  have hl : statusMap.lookup s = none := by
    simp [statusMap, List.lookup, e1, e2, e3, e4]
  constructor
  · intro hp
    unfold statusBadge statusMapIndex
    rw [hl, if_neg hp]
  · intro hp
    unfold statusBadge statusMapIndex
    rw [hl, if_pos hp]

/-- Witness for C9 at the unknown status string archived, which is
neither a known key nor an inherited member name. -/
theorem statusBadge_total_amended_witness :
    statusBadge "archived" =
      ⟨some "archived", renderClassName (some "bg-gray-100 text-gray-600")⟩ :=
  (statusBadge_total_amended "archived" (by decide)).1 (by decide)

/-- Claim C6: reprocess succeeds only when the current status is
completed or failed, and on a processing document it is rejected with
InvalidState, leaving the whole dispatcher state — in particular the
queue — unchanged, so no job is enqueued. -/
theorem reprocess_requires_terminal (docId : String) (now : ℕ)
    (st : DispatchState) :
    ((reprocess docId now st).1 = none →
       st.doc.status = .completed ∨ st.doc.status = .failed) ∧
    (st.doc.status = .processing →
       reprocess docId now st = (some .InvalidState, st)) := by
  constructor
  · intro h
    by_cases hc : st.doc.status = .completed ∨ st.doc.status = .failed
    · exact hc
    · simp only [reprocess, if_neg hc] at h
      exact absurd h (by simp)
  · intro h
    have hc : ¬ (st.doc.status = .completed ∨ st.doc.status = .failed) := by
      simp [h]
    simp [reprocess, hc]

/-- Witness for C6: a processing document is rejected with InvalidState
and the state is unchanged. -/
theorem reprocess_requires_terminal_witness :
    reprocess "doc-1" 0 procState = (some .InvalidState, procState) :=
  (reprocess_requires_terminal "doc-1" 0 procState).2 rfl

/-- Claim C4: a run whose understanding adapter is unconfigured, on a
document whose AI fields are clear (as the dispatcher guarantees at run
start) and whose required stage succeeds on every page, terminates with
status completed and with category, summary, tags, entities,
document_date and key_points all null/empty. -/
theorem unconfigured_understanding_completes (docId : String) (pc : ℕ)
    (recog : ℕ → RecogOutcome) (tables : ℕ → TableOutcome)
    (d : Document) (rows : List OCRPageRow)
    (hai : aiFieldsEmpty d)
    (hrec : ∀ n ∈ pageNumbers pc, (recog n).succeeded = true) :
    (runPipeline docId pc recog tables .unconfigured d rows).1.status =
      .completed ∧
    aiFieldsEmpty (runPipeline docId pc recog tables .unconfigured d rows).1 := by
  have hall : (pageNumbers pc).all (fun n => (recog n).succeeded) = true :=
    List.all_eq_true.mpr hrec
  unfold runPipeline
  rw [if_pos hall]
  exact ⟨rfl, hai⟩

/-- Witness for C4: a one-page document with a clear AI state and an
unconfigured understanding adapter completes with empty AI fields. -/
theorem unconfigured_understanding_completes_witness :
    (runPipeline "doc-1" 1 wRecog wTables .unconfigured emptyDoc []).1.status =
      .completed ∧
    aiFieldsEmpty
      (runPipeline "doc-1" 1 wRecog wTables .unconfigured emptyDoc []).1 :=
  unconfigured_understanding_completes "doc-1" 1 wRecog wTables emptyDoc []
    (by exact ⟨rfl, rfl, rfl, rfl, rfl, rfl⟩) (by decide)

/-- The KB branch: toFixed(1) on the exact quotient by 1024 agrees with
integer round-half-up to tenths. -/
theorem jsToFixed1_kb (b : ℕ) :
    jsToFixed1 ((b : ℚ) / 1024) = oneDecimalString b 1024 := by
  unfold jsToFixed1 oneDecimalString
  have key : 10 * ((b : ℚ) / 1024) + 1 / 2 =
      ((10 * b + 512 : ℕ) : ℚ) / ((1024 : ℕ) : ℚ) := by
    push_cast
    ring
  rw [key, Nat.floor_div_nat, Nat.floor_natCast]

/-- The MB branch: toFixed(1) on the exact quotient by 1048576 agrees
with integer round-half-up to tenths. -/
theorem jsToFixed1_mb (b : ℕ) :
    jsToFixed1 ((b : ℚ) / (1024 * 1024)) = oneDecimalString b 1048576 := by
  unfold jsToFixed1 oneDecimalString
  have key : 10 * ((b : ℚ) / (1024 * 1024)) + 1 / 2 =
      ((10 * b + 524288 : ℕ) : ℚ) / ((1048576 : ℕ) : ℚ) := by
    push_cast
    ring
  rw [key, Nat.floor_div_nat, Nat.floor_natCast]

/-- Claim C10: formatSize renders the raw count with " B" below 1024, the
count over 1024 rounded to one decimal with " KB" below 1048576, and
otherwise the count over 1048576 rounded to one decimal with " MB"; it
never emits a larger unit, so any gigabyte-scale count still ends in
" MB". -/
theorem formatSize_matches_claim (b : ℕ) :
    formatSize b = formatSizeClaim b ∧
    (1073741824 ≤ b → ∃ p, formatSize b = p ++ " MB") := by
  constructor
  · unfold formatSize formatSizeClaim
    by_cases h1 : b < 1024
    · rw [if_pos h1, if_pos h1]
    · rw [if_neg h1, if_neg h1]
      by_cases h2 : b < 1024 * 1024
      · rw [if_pos h2, if_pos (show b < 1048576 by omega), jsToFixed1_kb]
      · rw [if_neg h2, if_neg (show ¬ b < 1048576 by omega), jsToFixed1_mb]
  · intro h
    refine ⟨jsToFixed1 ((b : ℚ) / (1024 * 1024)), ?_⟩
    unfold formatSize
    rw [if_neg (by omega), if_neg (by omega)]

/-- Witness for C10: the claimed description holds at 5 bytes, and a
2 GiB count is still rendered in MB. -/
theorem formatSize_matches_claim_witness :
    formatSize 5 = formatSizeClaim 5 ∧
    ∃ p, formatSize 2147483648 = p ++ " MB" :=
  ⟨(formatSize_matches_claim 5).1,
   (formatSize_matches_claim 2147483648).2 (by norm_num)⟩

/-! ## Row-level lemmas about the persistence writer -/

/-- Any row of an upserted row set is either an old row or the new row. -/
theorem mem_of_mem_commitPage {rows : List OCRPageRow} {r q : OCRPageRow}
    (h : q ∈ commitPage rows r) : q ∈ rows ∨ q = r := by
  unfold commitPage at h
  rcases List.mem_append.mp h with h | h
  · exact Or.inl (List.mem_of_mem_filter h)
  · exact Or.inr (by simpa using h)

/-- The second projection of a run is the per-page fold, on both the
success and the failure branch. -/
theorem runPipeline_snd (docId : String) (pc : ℕ) (recog : ℕ → RecogOutcome)
    (tables : ℕ → TableOutcome) (und : UnderstandingOutcome)
    (d : Document) (rows : List OCRPageRow) :
    (runPipeline docId pc recog tables und d rows).2 =
      runRows docId pc recog tables rows := by
  unfold runPipeline
  split <;> rfl

/-- A property of rows that holds of the initial rows and of every row
the run commits holds of every row after the fold. -/
theorem foldl_pipelineStep_preserves (P : OCRPageRow → Prop)
    (docId : String) (recog : ℕ → RecogOutcome) (tables : ℕ → TableOutcome)
    (hA : ∀ n r, recog n = .ok r → P (mkRow docId n r (tablesOf (tables n))))
    (ns : List ℕ) :
    ∀ rows : List OCRPageRow, (∀ q ∈ rows, P q) →
      ∀ q ∈ ns.foldl (pipelineStep docId recog tables) rows, P q := by
  induction ns with
  | nil =>
    intro rows h q hq
    exact h q hq
  | cons n ns ih =>
    intro rows h q hq
    rw [List.foldl_cons] at hq
    refine ih _ ?_ q hq
    intro p hp
    unfold pipelineStep at hp
    cases hrec : recog n with
    | ok r =>
      rw [hrec] at hp
      rcases mem_of_mem_commitPage hp with hmem | hpr
      · exact h p hmem
      · rw [hpr]
        exact hA n r hrec
    | exhausted =>
      rw [hrec] at hp
      exact h p hp
    | permanent =>
      rw [hrec] at hp
      exact h p hp

/-- Claim C2: every OCR block delivered at the wire interface conforms to
the block schema — given that the recognition adapter honors its contract
(each returned block has a four-number bounding box and a confidence in
the unit interval) and the pre-existing rows do, every block of every row
a pipeline run leaves behind is well-formed. -/
theorem wire_blocks_conform (docId : String) (pc : ℕ)
    (recog : ℕ → RecogOutcome) (tables : ℕ → TableOutcome)
    (und : UnderstandingOutcome) (d : Document) (rows : List OCRPageRow)
    (hA : ∀ n r, recog n = .ok r → ∀ b ∈ r.blocks, blockWF b)
    (h0 : ∀ q ∈ rows, ∀ b ∈ q.blocks, blockWF b) :
    ∀ q ∈ (runPipeline docId pc recog tables und d rows).2,
      ∀ b ∈ q.blocks, blockWF b := by
  rw [runPipeline_snd]
  exact foldl_pipelineStep_preserves (fun q => ∀ b ∈ q.blocks, blockWF b)
    docId recog tables (fun n r hr b hb => hA n r hr b hb)
    (pageNumbers pc) rows h0

/-- Witness for C2: the block committed for the one-page witness document
is well-formed. -/
theorem wire_blocks_conform_witness :
    blockWF ⟨"請求書", [0, 0, 100, 20], 9 / 10⟩ :=
  wire_blocks_conform "doc-1" 1 wRecog wTables .unconfigured emptyDoc []
    (by
      intro n r hr b hb
      cases hr
      simp only [List.mem_singleton] at hb
      rw [hb]
      exact ⟨rfl, by norm_num, by norm_num⟩)
    (by intro q hq; cases hq)
    (mkRow "doc-1" 1 ⟨"請求書", [⟨"請求書", [0, 0, 100, 20], 9 / 10⟩]⟩ [])
    (by rw [runPipeline_snd]; exact List.Mem.head _)
    ⟨"請求書", [0, 0, 100, 20], 9 / 10⟩
    (List.Mem.head _)

/-- Unfolding of row-key equality. -/
theorem sameKey_eq_true_iff {a b : OCRPageRow} :
    sameKey a b = true ↔
      a.document_id = b.document_id ∧ a.page_number = b.page_number := by
  simp [sameKey]

/-- A recognition outcome succeeded exactly when it carries a result. -/
theorem succeeded_iff_ok {o : RecogOutcome} :
    o.succeeded = true ↔ ∃ r, o = .ok r := by
  cases o <;> simp [RecogOutcome.succeeded]

/-- A row a run commits carries a page number from the processed list. -/
theorem page_number_mem_of_mem_committedRows {docId : String}
    {recog : ℕ → RecogOutcome} {tables : ℕ → TableOutcome} {ns : List ℕ}
    {q : OCRPageRow} (h : q ∈ committedRows docId recog tables ns) :
    q.page_number ∈ ns := by
  unfold committedRows at h
  rcases List.mem_filterMap.mp h with ⟨n, hn, hf⟩
  cases hrec : recog n with
  | ok r =>
    rw [hrec] at hf
    cases hf
    exact hn
  | exhausted =>
    rw [hrec] at hf
    cases hf
  | permanent =>
    rw [hrec] at hf
    cases hf

/-- The committed row of a succeeding page is among the committed rows. -/
theorem mkRow_mem_committedRows {docId : String} {recog : ℕ → RecogOutcome}
    {tables : ℕ → TableOutcome} {ns : List ℕ} {n : ℕ} {r : PageOCR}
    (hn : n ∈ ns) (hrec : recog n = .ok r) :
    mkRow docId n r (tablesOf (tables n)) ∈
      committedRows docId recog tables ns := by
  unfold committedRows
  exact List.mem_filterMap.mpr ⟨n, hn, by rw [hrec]⟩

/-- A row whose page number lies outside the processed pages shares no
key with any committed row. -/
theorem keyHits_committedRows_eq_false {docId : String}
    {recog : ℕ → RecogOutcome} {tables : ℕ → TableOutcome} {ns : List ℕ}
    {q : OCRPageRow} (h : q.page_number ∉ ns) :
    keyHits q (committedRows docId recog tables ns) = false := by
  unfold keyHits
  rw [List.any_eq_false]
  intro r' hr' hk
  obtain ⟨_, hpn⟩ := sameKey_eq_true_iff.mp hk
  exact h (hpn ▸ page_number_mem_of_mem_committedRows hr')

/-- Characterization of the per-page fold over distinct pages: the
pre-existing rows whose keys the run does not overwrite, followed by the
run's committed rows. -/
theorem foldl_pipelineStep_eq (docId : String) (recog : ℕ → RecogOutcome)
    (tables : ℕ → TableOutcome) :
    ∀ ns : List ℕ, ns.Nodup → ∀ s : List OCRPageRow,
      ns.foldl (pipelineStep docId recog tables) s =
        s.filter (fun q => !keyHits q (committedRows docId recog tables ns)) ++
          committedRows docId recog tables ns := by
  intro ns
  induction ns with
  | nil =>
    intro _ s
    simp [committedRows, keyHits]
  | cons n ns ih =>
    intro hnd s
    obtain ⟨hnmem, hnd'⟩ := List.nodup_cons.mp hnd
    rw [List.foldl_cons]
    cases hrec : recog n with
    | ok r =>
      have hstep : pipelineStep docId recog tables s n =
          commitPage s (mkRow docId n r (tablesOf (tables n))) := by
        unfold pipelineStep
        rw [hrec]
      have hcr : committedRows docId recog tables (n :: ns) =
          mkRow docId n r (tablesOf (tables n)) ::
            committedRows docId recog tables ns := by
        unfold committedRows
        rw [List.filterMap_cons, hrec]
      have hrowk :
          keyHits (mkRow docId n r (tablesOf (tables n)))
            (committedRows docId recog tables ns) = false :=
        keyHits_committedRows_eq_false hnmem
      rw [hstep, ih hnd', hcr]
      unfold commitPage
      rw [List.filter_append, List.filter_filter]
      have hsingle :
          List.filter
            (fun q => !keyHits q (committedRows docId recog tables ns))
            [mkRow docId n r (tablesOf (tables n))] =
            [mkRow docId n r (tablesOf (tables n))] := by
        simp [hrowk]
      rw [hsingle, List.append_assoc, List.singleton_append]
      congr 1
      apply List.filter_congr
      intro q _
      simp [keyHits, Bool.and_comm]
    | exhausted =>
      have hstep : pipelineStep docId recog tables s n = s := by
        unfold pipelineStep
        rw [hrec]
      have hcr : committedRows docId recog tables (n :: ns) =
          committedRows docId recog tables ns := by
        unfold committedRows
        rw [List.filterMap_cons, hrec]
      rw [hstep, hcr, ih hnd']
    | permanent =>
      have hstep : pipelineStep docId recog tables s n = s := by
        unfold pipelineStep
        rw [hrec]
      have hcr : committedRows docId recog tables (n :: ns) =
          committedRows docId recog tables ns := by
        unfold committedRows
        rw [List.filterMap_cons, hrec]
      rw [hstep, hcr, ih hnd']

/-- The committed rows of a run over distinct pages have pairwise
distinct keys. -/
theorem uniqueKeys_committedRows (docId : String) (recog : ℕ → RecogOutcome)
    (tables : ℕ → TableOutcome) :
    ∀ ns : List ℕ, ns.Nodup →
      uniqueKeys (committedRows docId recog tables ns) := by
  intro ns
  induction ns with
  | nil =>
    intro _
    simp [committedRows, uniqueKeys]
  | cons n ns ih =>
    intro hnd
    obtain ⟨hnmem, hnd'⟩ := List.nodup_cons.mp hnd
    cases hrec : recog n with
    | ok r =>
      have hcr : committedRows docId recog tables (n :: ns) =
          mkRow docId n r (tablesOf (tables n)) ::
            committedRows docId recog tables ns := by
        unfold committedRows
        rw [List.filterMap_cons, hrec]
      rw [hcr]
      unfold uniqueKeys
      rw [List.pairwise_cons]
      refine ⟨?_, ih hnd'⟩
      intro r' hr'
      have hany := @keyHits_committedRows_eq_false docId recog tables ns
        (mkRow docId n r (tablesOf (tables n))) hnmem
      unfold keyHits at hany
      rw [List.any_eq_false] at hany
      exact Bool.eq_false_iff.mpr (hany r' hr')
    | exhausted =>
      have hcr : committedRows docId recog tables (n :: ns) =
          committedRows docId recog tables ns := by
        unfold committedRows
        rw [List.filterMap_cons, hrec]
      rw [hcr]
      exact ih hnd'
    | permanent =>
      have hcr : committedRows docId recog tables (n :: ns) =
          committedRows docId recog tables ns := by
        unfold committedRows
        rw [List.filterMap_cons, hrec]
      rw [hcr]
      exact ih hnd'

/-- The page numbers of one document's run are distinct. -/
theorem pageNumbers_nodup (pc : ℕ) : (pageNumbers pc).Nodup := by
  unfold pageNumbers
  exact List.nodup_range' 1 pc

/-- Re-running the per-page fold on its own output changes nothing. -/
theorem runRows_idem (docId : String) (pc : ℕ) (recog : ℕ → RecogOutcome)
    (tables : ℕ → TableOutcome) (s : List OCRPageRow) :
    runRows docId pc recog tables (runRows docId pc recog tables s) =
      runRows docId pc recog tables s := by
  unfold runRows
  rw [foldl_pipelineStep_eq docId recog tables (pageNumbers pc)
        (pageNumbers_nodup pc),
      foldl_pipelineStep_eq docId recog tables (pageNumbers pc)
        (pageNumbers_nodup pc)]
  rw [List.filter_append, List.filter_filter]
  have hC : List.filter
      (fun q => !keyHits q (committedRows docId recog tables (pageNumbers pc)))
      (committedRows docId recog tables (pageNumbers pc)) = [] := by
    rw [List.filter_eq_nil_iff]
    intro q hq
    have : keyHits q (committedRows docId recog tables (pageNumbers pc)) =
        true := by
      unfold keyHits
      exact List.any_eq_true.mpr ⟨q, hq, sameKey_eq_true_iff.mpr ⟨rfl, rfl⟩⟩
    simp [this]
  rw [hC, List.append_nil]
  congr 1
  apply List.filter_congr
  intro q _
  exact Bool.and_self _

/-- The fold preserves key uniqueness of the row set. -/
theorem uniqueKeys_runRows (docId : String) (pc : ℕ)
    (recog : ℕ → RecogOutcome) (tables : ℕ → TableOutcome)
    (s : List OCRPageRow) (hs : uniqueKeys s) :
    uniqueKeys (runRows docId pc recog tables s) := by
  unfold runRows
  rw [foldl_pipelineStep_eq docId recog tables (pageNumbers pc)
        (pageNumbers_nodup pc)]
  unfold uniqueKeys
  rw [List.pairwise_append]
  refine ⟨List.Pairwise.sublist (List.filter_sublist _) hs, ?_, ?_⟩
  · exact uniqueKeys_committedRows docId recog tables (pageNumbers pc)
      (pageNumbers_nodup pc)
  · intro a ha b hb
    have hmem := List.mem_filter.mp ha
    have hfalse : keyHits a (committedRows docId recog tables (pageNumbers pc))
        = false := by
      have := hmem.2
      simpa using this
    unfold keyHits at hfalse
    rw [List.any_eq_false] at hfalse
    exact Bool.eq_false_iff.mpr (hfalse b hb)

/-- Over distinct pages, the committed rows hold exactly one row for each
succeeding page. -/
theorem countKey_committedRows (docId : String) (recog : ℕ → RecogOutcome)
    (tables : ℕ → TableOutcome) :
    ∀ ns : List ℕ, ns.Nodup → ∀ n ∈ ns, (recog n).succeeded = true →
      countKey (committedRows docId recog tables ns) docId n = 1 := by
  intro ns
  induction ns with
  | nil =>
    intro _ n hn
    cases hn
  | cons m ns ih =>
    intro hnd n hn hok
    obtain ⟨hmmem, hnd'⟩ := List.nodup_cons.mp hnd
    rcases List.mem_cons.mp hn with hnm | hn'
    · subst hnm
      obtain ⟨r, hrec⟩ := succeeded_iff_ok.mp hok
      have hcr : committedRows docId recog tables (n :: ns) =
          mkRow docId n r (tablesOf (tables n)) ::
            committedRows docId recog tables ns := by
        unfold committedRows
        rw [List.filterMap_cons, hrec]
      rw [hcr]
      unfold countKey
      rw [List.countP_cons]
      have hz : List.countP
          (fun q => decide (q.document_id = docId ∧ q.page_number = n))
          (committedRows docId recog tables ns) = 0 := by
        rw [List.countP_eq_zero]
        intro q hq hqk
        rw [decide_eq_true_eq] at hqk
        exact hmmem (hqk.2 ▸ page_number_mem_of_mem_committedRows hq)
      rw [hz]
      simp [mkRow]
    · cases hrec : recog m with
      | ok r =>
        have hcr : committedRows docId recog tables (m :: ns) =
            mkRow docId m r (tablesOf (tables m)) ::
              committedRows docId recog tables ns := by
          unfold committedRows
          rw [List.filterMap_cons, hrec]
        rw [hcr]
        unfold countKey
        rw [List.countP_cons]
        have hne : n ≠ m := fun h => hmmem (h ▸ hn')
        have hhead : decide
            ((mkRow docId m r (tablesOf (tables m))).document_id = docId ∧
             (mkRow docId m r (tablesOf (tables m))).page_number = n) =
            false := by
          rw [decide_eq_false_iff_not]
          intro hk
          exact hne hk.2.symm
        rw [hhead]
        simpa [countKey] using ih hnd' n hn' hok
      | exhausted =>
        have hcr : committedRows docId recog tables (m :: ns) =
            committedRows docId recog tables ns := by
          unfold committedRows
          rw [List.filterMap_cons, hrec]
        rw [hcr]
        exact ih hnd' n hn' hok
      | permanent =>
        have hcr : committedRows docId recog tables (m :: ns) =
            committedRows docId recog tables ns := by
          unfold committedRows
          rw [List.filterMap_cons, hrec]
        rw [hcr]
        exact ih hnd' n hn' hok

/-- After a run, each succeeding page owns exactly one row for its
(document_id, page_number) key. -/
theorem countKey_runRows (docId : String) (pc : ℕ)
    (recog : ℕ → RecogOutcome) (tables : ℕ → TableOutcome)
    (s : List OCRPageRow) {n : ℕ} (hn : n ∈ pageNumbers pc)
    (hok : (recog n).succeeded = true) :
    countKey (runRows docId pc recog tables s) docId n = 1 := by
  obtain ⟨r, hrec⟩ := succeeded_iff_ok.mp hok
  unfold runRows
  rw [foldl_pipelineStep_eq docId recog tables (pageNumbers pc)
        (pageNumbers_nodup pc)]
  unfold countKey
  rw [List.countP_append]
  have hrowmem := @mkRow_mem_committedRows docId recog tables
    (pageNumbers pc) n r hn hrec
  have hA : List.countP
      (fun q => decide (q.document_id = docId ∧ q.page_number = n))
      (List.filter
        (fun q => !keyHits q (committedRows docId recog tables (pageNumbers pc)))
        s) = 0 := by
    rw [List.countP_eq_zero]
    intro q hq hqk
    rw [decide_eq_true_eq] at hqk
    have hmem := List.mem_filter.mp hq
    have hfalse : keyHits q
        (committedRows docId recog tables (pageNumbers pc)) = false := by
      simpa using hmem.2
    unfold keyHits at hfalse
    rw [List.any_eq_false] at hfalse
    apply hfalse _ hrowmem
    exact sameKey_eq_true_iff.mpr ⟨hqk.1, by simp [mkRow, hqk.2]⟩
  rw [hA]
  simpa [countKey] using
    countKey_committedRows docId recog tables (pageNumbers pc)
      (pageNumbers_nodup pc) n hn hok

/-- Claim C5: reprocessing is idempotent at the row level — running the
pipeline a second time with identical adapter outputs leaves the OCRPage
rows of the first run unchanged, the rows always hold at most one row per
(document_id, page_number) key, and each succeeding page holds exactly
one. -/
theorem reprocess_rows_idempotent (docId : String) (pc : ℕ)
    (recog : ℕ → RecogOutcome) (tables : ℕ → TableOutcome)
    (und und' : UnderstandingOutcome) (d : Document)
    (rows : List OCRPageRow) (hu : uniqueKeys rows) :
    (runPipeline docId pc recog tables und'
        (runPipeline docId pc recog tables und d rows).1
        (runPipeline docId pc recog tables und d rows).2).2 =
      (runPipeline docId pc recog tables und d rows).2 ∧
    uniqueKeys (runPipeline docId pc recog tables und d rows).2 ∧
    (∀ n ∈ pageNumbers pc, (recog n).succeeded = true →
      countKey (runPipeline docId pc recog tables und d rows).2 docId n = 1) := by
  rw [runPipeline_snd, runPipeline_snd]
  exact ⟨runRows_idem docId pc recog tables rows,
         uniqueKeys_runRows docId pc recog tables rows hu,
         fun n hn hok => countKey_runRows docId pc recog tables rows hn hok⟩

/-- Witness for C5: on the one-page witness run from an empty table,
the second run changes nothing and page 1 owns exactly one row. -/
theorem reprocess_rows_idempotent_witness :
    (runPipeline "doc-1" 1 wRecog wTables .unconfigured
        (runPipeline "doc-1" 1 wRecog wTables .unconfigured emptyDoc []).1
        (runPipeline "doc-1" 1 wRecog wTables .unconfigured emptyDoc []).2).2 =
      (runPipeline "doc-1" 1 wRecog wTables .unconfigured emptyDoc []).2 ∧
    countKey (runPipeline "doc-1" 1 wRecog wTables .unconfigured
        emptyDoc []).2 "doc-1" 1 = 1 := by
  have h := reprocess_rows_idempotent "doc-1" 1 wRecog wTables
    .unconfigured .unconfigured emptyDoc [] List.Pairwise.nil
  exact ⟨h.1, h.2.2 1 (by decide) (by decide)⟩

end OCRCheck
